import Mathlib

/-
  Shallow embedding of the 2-way arbitrage betting calculator
  (source file 2WayArb.py).  The numeric computations of the source are
  modelled over the exact rationals: money values and decimal odds become
  rational numbers, and the cent-level quantisation functions use the
  integer floor and ceiling.  A Python dict with the fixed keys
  odds / stake / return / profit becomes the structure Bet (the field
  named return in the source is called ret here because return is a
  reserved word).  Functions that mutate a list of bets in place are
  modelled as functions returning the updated list.
-/

namespace ArbBettor

/-- Embeds the function down: round a value down to two decimal places,
floor(100 * val) / 100. -/
def down (val : ℚ) : ℚ :=
  (⌊100 * val⌋ : ℚ) / 100

/-- Embeds assess_risk_free: the total implied probability
S = 1/o1 + 1/o2 together with the flag S < 1. -/
def assess_risk_free (o1 o2 : ℚ) : ℚ × Bool :=
  let S := (1 / o1) + (1 / o2)
  (S, decide (S < 1))

/-- A bet record: the dict with keys odds, stake, return, profit built
by add_bet in the source. -/
structure Bet where
  odds : ℚ
  stake : ℚ
  ret : ℚ
  profit : ℚ
deriving DecidableEq

/-- Embeds add_bet: append a fresh bet with the given odds and zeroed
stake, return and profit. -/
def add_bet (bets : List Bet) (odds : ℚ) : List Bet :=
  bets ++ [{ odds := odds, stake := 0, ret := 0, profit := 0 }]

/-- Embeds update_bet: write the two stakes into the first two bets and
recompute each return as down(stake * odds) and each profit as
down(return - stake).  The source indexes bets[0] and bets[1]; lists
with fewer than two elements are returned unchanged. -/
def update_bet (bets : List Bet) (stake1 stake2 : ℚ) : List Bet :=
  match bets with
  | b1 :: b2 :: rest =>
      let r1 := down (stake1 * b1.odds)
      let r2 := down (stake2 * b2.odds)
      { b1 with stake := stake1, ret := r1, profit := down (r1 - stake1) } ::
      { b2 with stake := stake2, ret := r2, profit := down (r2 - stake2) } :: rest
  | bs => bs

/-- Embeds round_stake: ceiling at cent granularity when round_up is
true, otherwise down. -/
def round_stake (stake : ℚ) (round_up : Bool) : ℚ :=
  if round_up then (⌈100 * stake⌉ : ℚ) / 100 else down stake

/-- Embeds split_stakes: raw stakes payout / o1 and payout / o2, the
first rounded up exactly when o1 < o2, the second rounded up exactly
when o2 < o1, then update_bet. -/
def split_stakes (bets : List Bet) (payout o1 o2 : ℚ) : List Bet :=
  let stake1 := payout / o1
  let stake2 := payout / o2
  update_bet bets (round_stake stake1 (decide (o1 < o2)))
    (round_stake stake2 (decide (o2 < o1)))

/-- Embeds process_bets: assess the odds, short-circuit to none when
not risk-free, otherwise build the two bets, derive
payout = down(T / S) and profit = down(payout - T), and split the
stakes.  The Python return value (None, None) versus (bets, profit)
becomes an Option of a pair. -/
def process_bets (o1 o2 T : ℚ) : Option (List Bet × ℚ) :=
  let SR := assess_risk_free o1 o2
  let S := SR.1
  let is_risk_free := SR.2
  if is_risk_free then
    let bets := add_bet (add_bet [] o1) o2
    let payout := down (T / S)
    let profit := down (payout - T)
    some (split_stakes bets payout o1 o2, profit)
  else
    none

/-- Embeds the numeric core of bet_data: the guaranteed minimum profit
min(win1 - T, win2 - T), where win1 and win2 are the return fields of
the first two bets and T is the total stake budget.  In the source T is
a module-level global read inside bet_data; it is passed explicitly
here.  The DataFrame construction and table display are presentation
glue with no effect on the returned value and are not modelled.  Lists
with fewer than two bets, on which the source would raise, are mapped
to 0. -/
def bet_data (bets : List Bet) (T : ℚ) : ℚ :=
  match bets with
  | b1 :: b2 :: _ => min (b1.ret - T) (b2.ret - T)
  | _ => 0

/-- A money value lies on the cent grid: an integer number of cents. -/
def isCent (x : ℚ) : Prop :=
  ∃ n : ℤ, x = (n : ℚ) / 100

/-- down never exceeds its argument. -/
lemma down_le (x : ℚ) : down x ≤ x := by
  have h := Int.floor_le (100 * x)
  unfold down
  rw [div_le_iff₀ (by norm_num : (0:ℚ) < 100)]
  linarith

/-- down loses strictly less than one cent. -/
lemma lt_down_add (x : ℚ) : x < down x + 1 / 100 := by
  have h := Int.lt_floor_add_one (100 * x)
  unfold down
  have h2 : (⌊100 * x⌋ : ℚ) / 100 + 1 / 100 = ((⌊100 * x⌋ : ℚ) + 1) / 100 := by ring
  rw [h2, lt_div_iff₀ (by norm_num : (0:ℚ) < 100)]
  linarith

/-- down of a nonnegative value is nonnegative. -/
lemma down_nonneg {x : ℚ} (hx : 0 ≤ x) : 0 ≤ down x := by
  unfold down
  have h : (0:ℤ) ≤ ⌊100 * x⌋ := Int.floor_nonneg.mpr (by linarith)
  apply div_nonneg _ (by norm_num)
  exact_mod_cast h

/-- down always lands on the cent grid. -/
lemma down_cent (x : ℚ) : isCent (down x) := ⟨⌊100 * x⌋, rfl⟩

/-- round_stake always lands on the cent grid. -/
lemma round_stake_cent (x : ℚ) (b : Bool) : isCent (round_stake x b) := by
  cases b with
  | false => exact ⟨⌊100 * x⌋, rfl⟩
  | true => exact ⟨⌈100 * x⌉, by simp [round_stake]⟩

/-- round_stake of a nonnegative value is a nonnegative number of
cents, in either rounding direction. -/
lemma round_stake_cent_nonneg {x : ℚ} (hx : 0 ≤ x) (b : Bool) :
    ∃ n : ℤ, 0 ≤ n ∧ round_stake x b = (n : ℚ) / 100 := by
  cases b with
  | false => exact ⟨⌊100 * x⌋, Int.floor_nonneg.mpr (by linarith), rfl⟩
  | true =>
      refine ⟨⌈100 * x⌉, Int.ceil_nonneg (by linarith), ?_⟩
      simp [round_stake]

/-- A nonnegative whole number of cents grows, even after truncation,
when multiplied by odds of at least 1. -/
lemma down_mul_ge {n : ℤ} (hn : 0 ≤ n) {o : ℚ} (ho : 1 ≤ o) :
    ((n : ℚ) / 100) ≤ down (((n : ℚ) / 100) * o) := by
  have hn2 : (0:ℚ) ≤ (n : ℚ) := by exact_mod_cast hn
  have h1 : ((n : ℚ)) ≤ (n : ℚ) * o := le_mul_of_one_le_right hn2 ho
  have h2 : (n : ℚ) ≤ (⌊100 * ((n : ℚ) / 100 * o)⌋ : ℚ) := by
    have h3 : ((n : ℚ)) ≤ 100 * ((n : ℚ) / 100 * o) := by
      rw [show (100 : ℚ) * ((n : ℚ) / 100 * o) = (n : ℚ) * o by ring]
      exact h1
    exact_mod_cast Int.le_floor.mpr (by exact_mod_cast h3)
  unfold down
  linarith

/-- For a stake that is a nonnegative whole number of cents and odds of
at least 1, the leg profit down(down(stake * odds) - stake) is
nonnegative. -/
lemma leg_profit_nonneg {s o : ℚ} (hs : ∃ n : ℤ, 0 ≤ n ∧ s = (n : ℚ) / 100)
    (ho : 1 ≤ o) : 0 ≤ down (down (s * o) - s) := by
  obtain ⟨n, hn, rfl⟩ := hs
  have h := down_mul_ge hn ho
  exact down_nonneg (by linarith)

/-- In the risk-free case process_bets takes the success branch. -/
lemma process_bets_pos {o1 o2 : ℚ} (T : ℚ) (hS : 1 / o1 + 1 / o2 < 1) :
    process_bets o1 o2 T =
      some (split_stakes (add_bet (add_bet [] o1) o2)
              (down (T / (1 / o1 + 1 / o2))) o1 o2,
            down (down (T / (1 / o1 + 1 / o2)) - T)) := by
  have hS2 : o1⁻¹ + o2⁻¹ < 1 := by simpa [one_div] using hS
  simp [process_bets, assess_risk_free, hS2, one_div]

/-- When the odds are not risk-free process_bets returns none. -/
lemma process_bets_neg {o1 o2 : ℚ} (T : ℚ) (hS : ¬ (1 / o1 + 1 / o2 < 1)) :
    process_bets o1 o2 T = none := by
  have hS2 : ¬ (o1⁻¹ + o2⁻¹ < 1) := by simpa [one_div] using hS
  simp [process_bets, assess_risk_free, hS2]

/-- The fully evaluated success result of process_bets: two bet records
carrying the input odds, the rounded stakes, and return and profit
recomputed from the rounded stakes. -/
lemma process_bets_explicit {o1 o2 : ℚ} (T s1 s2 : ℚ) (hS : 1 / o1 + 1 / o2 < 1)
    (e1 : s1 = round_stake (down (T / (1 / o1 + 1 / o2)) / o1) (decide (o1 < o2)))
    (e2 : s2 = round_stake (down (T / (1 / o1 + 1 / o2)) / o2) (decide (o2 < o1))) :
    process_bets o1 o2 T =
      some ([{ odds := o1, stake := s1, ret := down (s1 * o1),
               profit := down (down (s1 * o1) - s1) },
             { odds := o2, stake := s2, ret := down (s2 * o2),
               profit := down (down (s2 * o2) - s2) }],
            down (down (T / (1 / o1 + 1 / o2)) - T)) := by
  subst e1
  subst e2
  rw [process_bets_pos T hS]
  simp [split_stakes, add_bet, update_bet]

/-- Inversion of a successful run of process_bets: the risk-free test
held and the output has exactly the explicit success shape. -/
lemma process_bets_some {o1 o2 T : ℚ} {bets : List Bet} {p : ℚ}
    (h : process_bets o1 o2 T = some (bets, p)) :
    ∃ s1 s2 : ℚ,
      s1 = round_stake (down (T / (1 / o1 + 1 / o2)) / o1) (decide (o1 < o2)) ∧
      s2 = round_stake (down (T / (1 / o1 + 1 / o2)) / o2) (decide (o2 < o1)) ∧
      bets = [{ odds := o1, stake := s1, ret := down (s1 * o1),
                profit := down (down (s1 * o1) - s1) },
              { odds := o2, stake := s2, ret := down (s2 * o2),
                profit := down (down (s2 * o2) - s2) }] ∧
      p = down (down (T / (1 / o1 + 1 / o2)) - T) ∧
      1 / o1 + 1 / o2 < 1 := by
  by_cases hS : 1 / o1 + 1 / o2 < 1
  · rw [process_bets_pos T hS] at h
    refine ⟨_, _, rfl, rfl, ?_, ?_, hS⟩
    · have h0 := (Option.some.injEq _ _).mp h
      have h1 := congrArg Prod.fst h0
      simp only at h1
      rw [← h1]
      simp [split_stakes, add_bet, update_bet]
    · have h0 := (Option.some.injEq _ _).mp h
      have h2 := congrArg Prod.snd h0
      simpa using h2.symm
  · rw [process_bets_neg T hS] at h
    exact absurd h (by simp)

/-- C1: for every valid risk-free input (odds above 1, total implied
probability below 1, budget of at least one cent), the evaluation
pipeline succeeds and the profit field of both produced bet records is
nonnegative. -/
theorem C1_profit_nonneg (o1 o2 T : ℚ) (ho1 : 1 < o1) (ho2 : 1 < o2)
    (hS : 1 / o1 + 1 / o2 < 1) (hT : 1 / 100 ≤ T) :
    ∃ b1 b2 p, process_bets o1 o2 T = some ([b1, b2], p) ∧
      0 ≤ b1.profit ∧ 0 ≤ b2.profit := by
  have hpos1 : (0:ℚ) < o1 := by linarith
  have hpos2 : (0:ℚ) < o2 := by linarith
  have hp0 : 0 ≤ down (T / (1 / o1 + 1 / o2)) := by
    apply down_nonneg
    apply div_nonneg (by linarith)
    positivity
  obtain ⟨n1, hn1, hs1⟩ := round_stake_cent_nonneg
    (div_nonneg hp0 hpos1.le) (decide (o1 < o2))
  obtain ⟨n2, hn2, hs2⟩ := round_stake_cent_nonneg
    (div_nonneg hp0 hpos2.le) (decide (o2 < o1))
  refine ⟨_, _, _, process_bets_explicit T _ _ hS rfl rfl, ?_, ?_⟩
  · exact leg_profit_nonneg ⟨n1, hn1, hs1⟩ ho1.le
  · exact leg_profit_nonneg ⟨n2, hn2, hs2⟩ ho2.le

/-- Witness for C1 at odds 2 and 3 with budget 100. -/
theorem C1_profit_nonneg_witness :
    (1:ℚ) < 2 ∧ (1:ℚ) < 3 ∧ 1 / (2:ℚ) + 1 / 3 < 1 ∧ 1 / 100 ≤ (100:ℚ) ∧
    (∃ b1 b2 p, process_bets 2 3 100 = some ([b1, b2], p) ∧
      0 ≤ b1.profit ∧ 0 ≤ b2.profit) :=
  ⟨by norm_num, by norm_num, by norm_num, by norm_num,
   C1_profit_nonneg 2 3 100 (by norm_num) (by norm_num) (by norm_num) (by norm_num)⟩

/-- C2 counterexample: at odds 2 and 3 with budget 100 the pipeline
produces profit fields 60 and 80, so the minimum of the two profit
fields is 60, while the guaranteed profit reported by bet_data is 20.
The reported scalar is therefore not min(bet1.profit, bet2.profit). -/
theorem C2_counterexample :
    process_bets 2 3 100 =
      some ([{ odds := 2, stake := 60, ret := 120, profit := 60 },
             { odds := 3, stake := 40, ret := 120, profit := 80 }], 20) ∧
    bet_data [{ odds := 2, stake := 60, ret := 120, profit := 60 },
              { odds := 3, stake := 40, ret := 120, profit := 80 }] 100 = 20 ∧
    min (Bet.profit { odds := 2, stake := 60, ret := 120, profit := 60 })
        (Bet.profit { odds := 3, stake := 40, ret := 120, profit := 80 }) = 60 ∧
    bet_data [{ odds := 2, stake := 60, ret := 120, profit := 60 },
              { odds := 3, stake := 40, ret := 120, profit := 80 }] 100 ≠
      min (Bet.profit { odds := 2, stake := 60, ret := 120, profit := 60 })
          (Bet.profit { odds := 3, stake := 40, ret := 120, profit := 80 }) := by
  refine ⟨?_, ?_, ?_, ?_⟩
  · norm_num [process_bets, assess_risk_free, add_bet, split_stakes, update_bet,
      round_stake, down]
  · norm_num [bet_data]
  · norm_num
  · norm_num [bet_data]

/-- C2 as amended: the scalar guaranteed profit reported for a
successful evaluation is the minimum over the two legs of the return
field minus the total budget T, min(bet1.return - T, bet2.return - T),
computed without further quantisation; it is not the minimum of the two
profit fields. -/
theorem C2_reported_profit (o1 o2 T : ℚ) (b1 b2 : Bet) (p : ℚ)
    (h : process_bets o1 o2 T = some ([b1, b2], p)) :
    bet_data [b1, b2] T = min (b1.ret - T) (b2.ret - T) := rfl

/-- Witness for the amended C2 at odds 2 and 3 with budget 100. -/
theorem C2_reported_profit_witness :
    process_bets 2 3 100 =
      some ([{ odds := 2, stake := 60, ret := 120, profit := 60 },
             { odds := 3, stake := 40, ret := 120, profit := 80 }], 20) ∧
    bet_data [{ odds := 2, stake := 60, ret := 120, profit := 60 },
              { odds := 3, stake := 40, ret := 120, profit := 80 }] 100 =
      min ((120:ℚ) - 100) ((120:ℚ) - 100) :=
  ⟨by norm_num [process_bets, assess_risk_free, add_bet, split_stakes, update_bet,
      round_stake, down],
   C2_reported_profit 2 3 100
     { odds := 2, stake := 60, ret := 120, profit := 60 }
     { odds := 3, stake := 40, ret := 120, profit := 80 } 20
     (by norm_num [process_bets, assess_risk_free, add_bet, split_stakes, update_bet,
        round_stake, down])⟩

/-- C3: the allocator rounds the raw stake payout/odds of the leg with
strictly lower odds up to the next cent and the raw stake of the leg
with strictly higher odds down to the cent; when the odds are equal
both stakes are rounded down. -/
theorem C3_round_directions (b1 b2 : Bet) (rest : List Bet) (payout o1 o2 : ℚ)
    (ho1 : 1 < o1) (ho2 : 1 < o2) :
    ∃ c1 c2, split_stakes (b1 :: b2 :: rest) payout o1 o2 = c1 :: c2 :: rest ∧
      (o1 < o2 → c1.stake = (⌈100 * (payout / o1)⌉ : ℚ) / 100 ∧
                 c2.stake = (⌊100 * (payout / o2)⌋ : ℚ) / 100) ∧
      (o2 < o1 → c1.stake = (⌊100 * (payout / o1)⌋ : ℚ) / 100 ∧
                 c2.stake = (⌈100 * (payout / o2)⌉ : ℚ) / 100) ∧
      (o1 = o2 → c1.stake = (⌊100 * (payout / o1)⌋ : ℚ) / 100 ∧
                 c2.stake = (⌊100 * (payout / o2)⌋ : ℚ) / 100) := by
  refine ⟨_, _, rfl, ?_, ?_, ?_⟩
  · intro hlt
    constructor
    · show round_stake (payout / o1) (decide (o1 < o2)) = _
      simp [round_stake, hlt]
    · show round_stake (payout / o2) (decide (o2 < o1)) = _
      simp [round_stake, down, asymm hlt]
  · intro hlt
    constructor
    · show round_stake (payout / o1) (decide (o1 < o2)) = _
      simp [round_stake, down, asymm hlt]
    · show round_stake (payout / o2) (decide (o2 < o1)) = _
      simp [round_stake, hlt]
  · intro heq
    subst heq
    constructor
    · show round_stake (payout / o1) (decide (o1 < o1)) = _
      simp [round_stake, down, lt_irrefl]
    · show round_stake (payout / o1) (decide (o1 < o1)) = _
      simp [round_stake, down, lt_irrefl]

/-- Witness for C3 at odds 1.90 and 2.20 with payout 120: the lower
leg rounds up, the higher leg rounds down. -/
theorem C3_round_directions_witness :
    (1:ℚ) < 19 / 10 ∧ (1:ℚ) < 11 / 5 ∧
    (∃ c1 c2, split_stakes
        ({ odds := 19/10, stake := 0, ret := 0, profit := 0 } ::
         { odds := 11/5, stake := 0, ret := 0, profit := 0 } :: []) 120 (19/10) (11/5) =
        c1 :: c2 :: [] ∧
      ((19:ℚ)/10 < 11/5 →
        c1.stake = (⌈100 * ((120:ℚ) / (19/10))⌉ : ℚ) / 100 ∧
        c2.stake = (⌊100 * ((120:ℚ) / (11/5))⌋ : ℚ) / 100) ∧
      ((11:ℚ)/5 < 19/10 →
        c1.stake = (⌊100 * ((120:ℚ) / (19/10))⌋ : ℚ) / 100 ∧
        c2.stake = (⌈100 * ((120:ℚ) / (11/5))⌉ : ℚ) / 100) ∧
      ((19:ℚ)/10 = 11/5 →
        c1.stake = (⌊100 * ((120:ℚ) / (19/10))⌋ : ℚ) / 100 ∧
        c2.stake = (⌊100 * ((120:ℚ) / (11/5))⌋ : ℚ) / 100)) :=
  ⟨by norm_num, by norm_num,
   C3_round_directions
     { odds := 19/10, stake := 0, ret := 0, profit := 0 }
     { odds := 11/5, stake := 0, ret := 0, profit := 0 } [] 120 (19/10) (11/5)
     (by norm_num) (by norm_num)⟩

/-- C4: for odds above 1 the assessor returns the total implied
probability S = 1/o1 + 1/o2 together with a risk-free flag equal to
the strict comparison S < 1; in particular at S = 1 exactly the flag
is false. -/
theorem C4_assess (o1 o2 : ℚ) (ho1 : 1 < o1) (ho2 : 1 < o2) :
    (assess_risk_free o1 o2).1 = 1 / o1 + 1 / o2 ∧
      ((assess_risk_free o1 o2).2 = true ↔ 1 / o1 + 1 / o2 < 1) := by
  constructor
  · rfl
  · simp [assess_risk_free]

/-- Witness for C4 at the break-even pair of odds 2 and 2, where the
total implied probability is exactly 1 and the flag is false. -/
theorem C4_assess_witness :
    (1:ℚ) < 2 ∧
    ((assess_risk_free 2 2).1 = 1 / 2 + 1 / 2 ∧
     ((assess_risk_free 2 2).2 = true ↔ 1 / (2:ℚ) + 1 / 2 < 1)) :=
  ⟨by norm_num, C4_assess 2 2 (by norm_num) (by norm_num)⟩

/-- C5: the evaluation returns the no-opportunity result none exactly
when the total implied probability is at least 1, and this is the only
non-success outcome. -/
theorem C5_no_opportunity (o1 o2 T : ℚ) :
    process_bets o1 o2 T = none ↔ 1 ≤ 1 / o1 + 1 / o2 := by
  by_cases h : 1 / o1 + 1 / o2 < 1
  · rw [process_bets_pos T h]
    exact iff_of_false (by simp) (not_le.mpr h)
  · rw [process_bets_neg T h]
    exact iff_of_true rfl (not_lt.mp h)

/-- C6: for a positive budget and total implied probability below 1 the
derivation stage computes payout = down(T / S), splits the stakes from
that payout, and reports the theoretical profit down(payout - T). -/
theorem C6_derivation (o1 o2 T : ℚ) (ho1 : 1 < o1) (ho2 : 1 < o2)
    (hT : 0 < T) (hS : 1 / o1 + 1 / o2 < 1) :
    process_bets o1 o2 T =
      some (split_stakes (add_bet (add_bet [] o1) o2)
              (down (T / (1 / o1 + 1 / o2))) o1 o2,
            down (down (T / (1 / o1 + 1 / o2)) - T)) :=
  process_bets_pos T hS

/-- Witness for C6 at odds 2 and 3 with budget 100. -/
theorem C6_derivation_witness :
    (1:ℚ) < 2 ∧ (1:ℚ) < 3 ∧ (0:ℚ) < 100 ∧ 1 / (2:ℚ) + 1 / 3 < 1 ∧
    process_bets 2 3 100 =
      some (split_stakes (add_bet (add_bet [] 2) 3)
              (down (100 / (1 / (2:ℚ) + 1 / 3))) 2 3,
            down (down (100 / (1 / (2:ℚ) + 1 / 3)) - 100)) :=
  ⟨by norm_num, by norm_num, by norm_num, by norm_num,
   C6_derivation 2 3 100 (by norm_num) (by norm_num) (by norm_num) (by norm_num)⟩

/-- C7: in every successful evaluation, each bet record has its return
field equal to down(stake * odds) computed from the rounded stake, and
its profit field equal to down(return - stake). -/
theorem C7_recomputed (o1 o2 T : ℚ) (b1 b2 : Bet) (p : ℚ)
    (h : process_bets o1 o2 T = some ([b1, b2], p)) :
    b1.ret = down (b1.stake * b1.odds) ∧
    b1.profit = down (b1.ret - b1.stake) ∧
    b2.ret = down (b2.stake * b2.odds) ∧
    b2.profit = down (b2.ret - b2.stake) := by
  obtain ⟨s1, s2, e1, e2, hbets, hp, hS⟩ := process_bets_some h
  obtain ⟨hb1, hb2⟩ : b1 = _ ∧ b2 = _ := by simpa using hbets
  subst hb1
  subst hb2
  exact ⟨rfl, rfl, rfl, rfl⟩

/-- Witness for C7 at odds 2 and 3 with budget 100. -/
theorem C7_recomputed_witness :
    process_bets 2 3 100 =
      some ([{ odds := 2, stake := 60, ret := 120, profit := 60 },
             { odds := 3, stake := 40, ret := 120, profit := 80 }], 20) ∧
    ((120:ℚ) = down (60 * 2) ∧ (60:ℚ) = down (120 - 60) ∧
     (120:ℚ) = down (40 * 3) ∧ (80:ℚ) = down (120 - 40)) :=
  ⟨by norm_num [process_bets, assess_risk_free, add_bet, split_stakes, update_bet,
     round_stake, down],
   C7_recomputed 2 3 100
     { odds := 2, stake := 60, ret := 120, profit := 60 }
     { odds := 3, stake := 40, ret := 120, profit := 80 } 20
     (by norm_num [process_bets, assess_risk_free, add_bet, split_stakes, update_bet,
        round_stake, down])⟩

/-- C8: in every successful evaluation, the stake, return and profit
fields of both produced bet records are exact integer multiples of one
cent. -/
theorem C8_cent_grid (o1 o2 T : ℚ) (b1 b2 : Bet) (p : ℚ)
    (h : process_bets o1 o2 T = some ([b1, b2], p)) :
    (isCent b1.stake ∧ isCent b1.ret ∧ isCent b1.profit) ∧
    (isCent b2.stake ∧ isCent b2.ret ∧ isCent b2.profit) := by
  obtain ⟨s1, s2, e1, e2, hbets, hp, hS⟩ := process_bets_some h
  obtain ⟨hb1, hb2⟩ : b1 = _ ∧ b2 = _ := by simpa using hbets
  subst hb1
  subst hb2
  refine ⟨⟨?_, down_cent _, down_cent _⟩, ⟨?_, down_cent _, down_cent _⟩⟩
  · show isCent s1
    rw [e1]
    exact round_stake_cent _ _
  · show isCent s2
    rw [e2]
    exact round_stake_cent _ _

/-- Witness for C8 at odds 2 and 3 with budget 100. -/
theorem C8_cent_grid_witness :
    process_bets 2 3 100 =
      some ([{ odds := 2, stake := 60, ret := 120, profit := 60 },
             { odds := 3, stake := 40, ret := 120, profit := 80 }], 20) ∧
    ((isCent (60:ℚ) ∧ isCent (120:ℚ) ∧ isCent (60:ℚ)) ∧
     (isCent (40:ℚ) ∧ isCent (120:ℚ) ∧ isCent (80:ℚ))) :=
  ⟨by norm_num [process_bets, assess_risk_free, add_bet, split_stakes, update_bet,
     round_stake, down],
   C8_cent_grid 2 3 100
     { odds := 2, stake := 60, ret := 120, profit := 60 }
     { odds := 3, stake := 40, ret := 120, profit := 80 } 20
     (by norm_num [process_bets, assess_risk_free, add_bet, split_stakes, update_bet,
        round_stake, down])⟩

/-- C9 counterexample: down does not truncate toward zero on negative
arguments; at -0.005 it returns -0.01, whose magnitude strictly
exceeds the magnitude of the argument, while truncation toward zero
never increases magnitude. -/
theorem C9_counterexample :
    down (-1 / 200) = -1 / 100 ∧ ¬ |down (-1 / 200)| ≤ |(-1 : ℚ) / 200| := by
  constructor
  · norm_num [down]
  · norm_num [down, abs]

/-- C9 as amended: down(x) = floor(100 * x) / 100 rounds toward
negative infinity at the cent level, losing strictly less than one
cent; it is nonnegative exactly when its argument is, so on
nonnegative arguments it truncates toward zero, but on negative
arguments it rounds away from zero. -/
theorem C9_floor2 (x : ℚ) :
    down x = (⌊100 * x⌋ : ℚ) / 100 ∧ down x ≤ x ∧ x < down x + 1 / 100 ∧
      (0 ≤ down x ↔ 0 ≤ x) := by
  refine ⟨rfl, down_le x, lt_down_add x, ?_⟩
  constructor
  · intro h
    by_contra hneg
    push_neg at hneg
    have := down_le x
    linarith
  · exact down_nonneg

/-- C10: every risk-free evaluation returns exactly two bet records,
the first carrying the supplied first odds and the second the supplied
second odds, unchanged by the allocation step. -/
theorem C10_two_bets_odds (o1 o2 T : ℚ) (hS : 1 / o1 + 1 / o2 < 1) :
    ∃ b1 b2 p, process_bets o1 o2 T = some ([b1, b2], p) ∧
      b1.odds = o1 ∧ b2.odds = o2 :=
  ⟨_, _, _, process_bets_explicit T _ _ hS rfl rfl, rfl, rfl⟩

/-- Witness for C10 at odds 2 and 3 with budget 100. -/
theorem C10_two_bets_odds_witness :
    1 / (2:ℚ) + 1 / 3 < 1 ∧
    (∃ b1 b2 p, process_bets 2 3 100 = some ([b1, b2], p) ∧
      b1.odds = 2 ∧ b2.odds = 3) :=
  ⟨by norm_num, C10_two_bets_odds 2 3 100 (by norm_num)⟩

end ArbBettor
